import Mathlib

/-!
Verification development for the akd quorum fragments.

Embedded source files:
  * `akd_quorum/src/proto/mod.rs` — conversions between internal message
    types and the wire (protobuf) interchange types;
  * `akd_quorum/src/node/node_states.rs` — `LeaderState`, `WorkerState`,
    `NodeStatus`;
  * `src/storage/memory/mod.rs` — `InMemoryDatabase` (evmap-backed) and
    `InMemoryDbWithCache` (process-global cache + backing map).

Machine integers (`u32`, `u64`) only ever get copied by the embedded code,
never computed with, so they are modelled as `Nat`.  Rust `Result` is
modelled as `Except`, protobuf `optional` fields as `Option`.
-/

-- ==============================================================
-- Digest model (the hash function is external to the repository)
-- ==============================================================

/-- Modelled from the spec: a `Digest` is "a fixed-size output of the
pluggable hash function; opaque, comparable for equality, serializable"
(the hasher `winter_crypto::Hasher` is not part of this repository).
The size is fixed at 32 bytes; a byte is modelled as `Nat`. -/
def DIGEST_LEN : Nat := 32

/-- Modelled from the spec: an opaque byte string of the fixed digest size. -/
abbrev Digest : Type := { l : List Nat // l.length = DIGEST_LEN }

/-- Modelled from the spec: `akd::serialization::from_digest` serializes a
digest to its bytes; on an actual digest this always succeeds. -/
def from_digest (d : Digest) : List Nat := d.val

/-- Modelled from the spec: `akd::serialization::to_digest` — "decoding a
digest validates only length/format, not semantic correctness". -/
def to_digest (l : List Nat) : Option Digest :=
  if h : l.length = DIGEST_LEN then some ⟨l, h⟩ else none

-- ==============================================================
-- Internal (in-memory) message types
-- ==============================================================

/-- Error type of the conversions (`crate::comms::CommunicationError`);
only the `Serialization` variant is reachable from the embedded code. -/
inductive CommunicationError where
  | Serialization (msg : String)
deriving DecidableEq

/-- Internal node label (`akd::node_state::NodeLabel`): `len : u32`,
`val : u64`; both only copied by the conversions, modelled as `Nat`. -/
structure akd.NodeLabel where
  len : Nat
  val : Nat
deriving DecidableEq

/-- Internal tree node (`akd::node_state::Node<H>`). -/
structure akd.Node where
  label : akd.NodeLabel
  hash : Digest
deriving DecidableEq

/-- Internal append-only proof (`akd::proof_structs::AppendOnlyProof<H>`):
two ordered sequences of nodes. -/
structure akd.AppendOnlyProof where
  inserted : List akd.Node
  unchanged_nodes : List akd.Node
deriving DecidableEq

/-- Internal verification request
(`crate::node::messages::inter_node::VerifyRequest<H>`). -/
structure messages.VerifyRequest where
  epoch : Nat
  new_hash : Digest
  previous_hash : Digest
  append_only_proof : akd.AppendOnlyProof
deriving DecidableEq

/-- Internal verification response
(`crate::node::messages::inter_node::VerifyResponse<H>`). -/
structure messages.VerifyResponse where
  verified_hash : Option Digest
  encrypted_quorum_key_shard : Option (List Nat)
deriving DecidableEq

-- ==============================================================
-- Wire (protobuf) message types: module `inter_node`
-- ==============================================================

namespace inter_node

/-- Wire `inter_node::NodeLabel`; every field is protobuf-`optional`. -/
structure NodeLabel where
  len : Option Nat
  val : Option Nat
deriving DecidableEq

/-- Fresh wire message (`Self::new()`): every optional field unset. -/
def NodeLabel.new : NodeLabel := ⟨none, none⟩

def NodeLabel.has_len (m : NodeLabel) : Bool := m.len.isSome

/-- Protobuf getter: the field's value, or the type default when unset. -/
def NodeLabel.get_len (m : NodeLabel) : Nat := m.len.getD 0

def NodeLabel.has_val (m : NodeLabel) : Bool := m.val.isSome

/-- Protobuf getter: the field's value, or the type default when unset. -/
def NodeLabel.get_val (m : NodeLabel) : Nat := m.val.getD 0

/-- Wire `inter_node::Node`; the hash travels as an opaque byte string. -/
structure Node where
  label : Option NodeLabel
  hash : Option (List Nat)
deriving DecidableEq

def Node.new : Node := ⟨none, none⟩

def Node.has_label (m : Node) : Bool := m.label.isSome

/-- Protobuf getter: the nested message, or its default instance when unset. -/
def Node.get_label (m : Node) : NodeLabel := m.label.getD NodeLabel.new

def Node.has_hash (m : Node) : Bool := m.hash.isSome

def Node.get_hash (m : Node) : List Nat := m.hash.getD []

/-- Wire `inter_node::AppendOnlyProof`; `inserted`/`unchanged` are
protobuf `repeated` fields (no presence bit, default empty). -/
structure AppendOnlyProof where
  inserted : List Node
  unchanged : List Node
deriving DecidableEq

def AppendOnlyProof.new : AppendOnlyProof := ⟨[], []⟩

def AppendOnlyProof.get_inserted (m : AppendOnlyProof) : List Node := m.inserted

def AppendOnlyProof.get_unchanged (m : AppendOnlyProof) : List Node := m.unchanged

/-- Wire `inter_node::VerifyRequest`. -/
structure VerifyRequest where
  epoch : Option Nat
  new_hash : Option (List Nat)
  previous_hash : Option (List Nat)
  proof : Option AppendOnlyProof
deriving DecidableEq

def VerifyRequest.new : VerifyRequest := ⟨none, none, none, none⟩

def VerifyRequest.has_epoch (m : VerifyRequest) : Bool := m.epoch.isSome

def VerifyRequest.get_epoch (m : VerifyRequest) : Nat := m.epoch.getD 0

def VerifyRequest.has_new_hash (m : VerifyRequest) : Bool := m.new_hash.isSome

def VerifyRequest.get_new_hash (m : VerifyRequest) : List Nat := m.new_hash.getD []

def VerifyRequest.has_previous_hash (m : VerifyRequest) : Bool := m.previous_hash.isSome

def VerifyRequest.get_previous_hash (m : VerifyRequest) : List Nat := m.previous_hash.getD []

def VerifyRequest.has_proof (m : VerifyRequest) : Bool := m.proof.isSome

/-- Protobuf getter: the nested message, or its default instance when unset. -/
def VerifyRequest.get_proof (m : VerifyRequest) : AppendOnlyProof := m.proof.getD AppendOnlyProof.new

/-- Wire `inter_node::VerifyResponse`. -/
structure VerifyResponse where
  verified_hash : Option (List Nat)
  encrypted_quorum_key_shard : Option (List Nat)
deriving DecidableEq

def VerifyResponse.new : VerifyResponse := ⟨none, none⟩

def VerifyResponse.has_verified_hash (m : VerifyResponse) : Bool := m.verified_hash.isSome

def VerifyResponse.get_verified_hash (m : VerifyResponse) : List Nat := m.verified_hash.getD []

def VerifyResponse.has_encrypted_quorum_key_shard (m : VerifyResponse) : Bool :=
  m.encrypted_quorum_key_shard.isSome

def VerifyResponse.get_encrypted_quorum_key_shard (m : VerifyResponse) : List Nat :=
  m.encrypted_quorum_key_shard.getD []

end inter_node

-- ==============================================================
-- Conversions (akd_quorum/src/proto/mod.rs)
-- ==============================================================

/-- Encoder `TryFrom<akd::node_state::NodeLabel> for inter_node::NodeLabel`. -/
def inter_node.NodeLabel.try_from (input : akd.NodeLabel) :
    Except CommunicationError inter_node.NodeLabel :=
  .ok { len := some input.len, val := some input.val }

/-- Decoder `TryFrom<&inter_node::NodeLabel> for akd::node_state::NodeLabel`:
the `require!` macro rejects an unset optional field with a
`Serialization` error naming the presence check that failed. -/
def akd.NodeLabel.try_from (input : inter_node.NodeLabel) :
    Except CommunicationError akd.NodeLabel :=
  if !input.has_len then
    .error (.Serialization "Condition input.has_len() failed.")
  else if !input.has_val then
    .error (.Serialization "Condition input.has_val() failed.")
  else
    .ok { len := input.get_len, val := input.get_val }

/-- Encoder `TryFrom<akd::node_state::Node<H>> for inter_node::Node`; the
`hash_to_bytes!` step is `from_digest`, which cannot fail in the model. -/
def inter_node.Node.try_from (input : akd.Node) :
    Except CommunicationError inter_node.Node := do
  let label ← inter_node.NodeLabel.try_from input.label
  .ok { label := some label, hash := some (from_digest input.hash) }

/-- Decoder `TryFrom<&inter_node::Node> for akd::node_state::Node<H>`:
`require!` on `label` and `hash`, then nested label decode, then
`hash_from_bytes!` (digest decode, fallible). -/
def akd.Node.try_from (input : inter_node.Node) :
    Except CommunicationError akd.Node :=
  if !input.has_label then
    .error (.Serialization "Condition input.has_label() failed.")
  else if !input.has_hash then
    .error (.Serialization "Condition input.has_hash() failed.")
  else do
    let label ← akd.NodeLabel.try_from input.get_label
    match to_digest input.get_hash with
    | some h => .ok { label := label, hash := h }
    | none => .error (.Serialization "Failed to convert bytes to digest")

/-- Encoder loop body of `TryFrom<AppendOnlyProof<H>> for
inter_node::AppendOnlyProof`: convert each node in order, stopping at the
first failure (the `?` inside the `for` loop). -/
def inter_node.Node.try_from_list :
    List akd.Node → Except CommunicationError (List inter_node.Node)
  | [] => .ok []
  | x :: xs => do
    let n ← inter_node.Node.try_from x
    let rest ← inter_node.Node.try_from_list xs
    .ok (n :: rest)

/-- Decoder loop body of `TryFrom<&inter_node::AppendOnlyProof> for
AppendOnlyProof<H>`: convert each wire node in order, stopping at the
first failure. -/
def akd.Node.try_from_list :
    List inter_node.Node → Except CommunicationError (List akd.Node)
  | [] => .ok []
  | x :: xs => do
    let n ← akd.Node.try_from x
    let rest ← akd.Node.try_from_list xs
    .ok (n :: rest)

/-- Encoder `TryFrom<AppendOnlyProof<H>> for inter_node::AppendOnlyProof`. -/
def inter_node.AppendOnlyProof.try_from (input : akd.AppendOnlyProof) :
    Except CommunicationError inter_node.AppendOnlyProof := do
  let ins ← inter_node.Node.try_from_list input.inserted
  let unch ← inter_node.Node.try_from_list input.unchanged_nodes
  .ok { inserted := ins, unchanged := unch }

/-- Decoder `TryFrom<&inter_node::AppendOnlyProof> for AppendOnlyProof<H>`;
note: no presence requirement of its own (repeated fields default empty). -/
def akd.AppendOnlyProof.try_from (input : inter_node.AppendOnlyProof) :
    Except CommunicationError akd.AppendOnlyProof := do
  let ins ← akd.Node.try_from_list input.get_inserted
  let unch ← akd.Node.try_from_list input.get_unchanged
  .ok { inserted := ins, unchanged_nodes := unch }

/-- Encoder `TryFrom<VerifyRequest<H>> for inter_node::VerifyRequest`. -/
def inter_node.VerifyRequest.try_from (input : messages.VerifyRequest) :
    Except CommunicationError inter_node.VerifyRequest := do
  let proof ← inter_node.AppendOnlyProof.try_from input.append_only_proof
  .ok { epoch := some input.epoch
        new_hash := some (from_digest input.new_hash)
        previous_hash := some (from_digest input.previous_hash)
        proof := some proof }

/-- Decoder `TryFrom<&inter_node::VerifyRequest> for VerifyRequest<H>`:
`require!` on `epoch`, `new_hash`, `previous_hash` — but not on `proof`,
which is read through the defaulting getter `get_proof()` — then the
nested proof decode and the two digest decodes (in `new_hash`,
`previous_hash` order). -/
def messages.VerifyRequest.try_from (input : inter_node.VerifyRequest) :
    Except CommunicationError messages.VerifyRequest :=
  if !input.has_epoch then
    .error (.Serialization "Condition input.has_epoch() failed.")
  else if !input.has_new_hash then
    .error (.Serialization "Condition input.has_new_hash() failed.")
  else if !input.has_previous_hash then
    .error (.Serialization "Condition input.has_previous_hash() failed.")
  else do
    let proof ← akd.AppendOnlyProof.try_from input.get_proof
    match to_digest input.get_new_hash with
    | none => .error (.Serialization "Failed to convert bytes to digest")
    | some nh =>
      match to_digest input.get_previous_hash with
      | none => .error (.Serialization "Failed to convert bytes to digest")
      | some ph =>
        .ok { epoch := input.get_epoch
              new_hash := nh
              previous_hash := ph
              append_only_proof := proof }

/-- Encoder `TryFrom<VerifyResponse<H>> for inter_node::VerifyResponse`:
only when the shard and the hash are both present are they written to the
wire message; otherwise the fresh (all-unset) message is returned. -/
def inter_node.VerifyResponse.try_from (input : messages.VerifyResponse) :
    Except CommunicationError inter_node.VerifyResponse :=
  match input.encrypted_quorum_key_shard, input.verified_hash with
  | some shard, some hash =>
      .ok { verified_hash := some (from_digest hash)
            encrypted_quorum_key_shard := some shard }
  | _, _ =>
      -- >= 1 of the components is missing: assumed a validation-failure value
      .ok inter_node.VerifyResponse.new

/-- Decoder `TryFrom<&inter_node::VerifyResponse> for VerifyResponse<H>`:
both fields present reconstructs the success value (digest decode
fallible); any other combination is mapped to the failure value. -/
def messages.VerifyResponse.try_from (input : inter_node.VerifyResponse) :
    Except CommunicationError messages.VerifyResponse :=
  if input.has_verified_hash && input.has_encrypted_quorum_key_shard then
    match to_digest input.get_verified_hash with
    | some h =>
        .ok { verified_hash := some h
              encrypted_quorum_key_shard := some input.get_encrypted_quorum_key_shard }
    | none => .error (.Serialization "Failed to convert bytes to digest")
  else
    .ok { verified_hash := none, encrypted_quorum_key_shard := none }

-- ==============================================================
-- Storage backend (src/storage/memory/mod.rs)
-- ==============================================================

/-- Storage error type (`crate::errors::StorageError`); the embedded code
only produces `GetError` ("not found"). -/
inductive StorageError where
  | GetError
deriving DecidableEq

/-- The contents of one evmap instance: every key maps to its multi-value
set, modelled as the list of current values (empty list = key absent).
`refresh()` is called inside every `set`, so the write is immediately
visible to the read handle and the pending-operation log needs no
separate modelling. -/
abbrev EvmapMap : Type := String → List String

/-- The process heap of evmap instances, addressed by handle id: a
`ReadHandle`/`WriteHandle` is modelled as the `Nat` id of the instance it
refers to. -/
abbrev EvmapEnv : Type := Nat → EvmapMap

/-- Heap in which no evmap instance holds any value (no key was ever set). -/
def emptyEvmapEnv : EvmapEnv := fun _ _ => []

/-- Struct `InMemoryDatabase { read_handle, write_handle }`: the two
handles are modelled by the ids of the evmap instances they point to. -/
structure InMemoryDatabase where
  read_handle : Nat
  write_handle : Nat
deriving DecidableEq

/-- Constructor `InMemoryDatabase::new()`: `evmap::new()` returns a read
and a write handle onto one fresh map, so both fields carry the same id
(`fresh`, supplied by the environment). -/
def InMemoryDatabase.new (fresh : Nat) : InMemoryDatabase :=
  { read_handle := fresh, write_handle := fresh }

/-- Method `InMemoryDatabase::set`: under the write-handle lock, `clear`
the key's value set, `insert` the new value and `refresh`; returns
`Ok(())`. -/
def InMemoryDatabase.set (db : InMemoryDatabase) (pos value : String)
    (env : EvmapEnv) : Except StorageError Unit × EvmapEnv :=
  (.ok (),
   fun h => if h = db.write_handle
     then fun k => if k = pos then [value] else env h k
     else env h)

/-- Method `InMemoryDatabase::get`: `read_handle.get(&pos)` yields the
key's value set (absent or empty yields nothing), `get_one` yields an
element of it; otherwise `Err(StorageError::GetError)`. -/
def InMemoryDatabase.get (db : InMemoryDatabase) (pos : String)
    (env : EvmapEnv) : Except StorageError String :=
  match env db.read_handle pos with
  | [] => .error .GetError
  | output :: _ => .ok output

/-- Impl `Clone for InMemoryDatabase`: both handles are cloned, i.e. the
clone refers to the same underlying evmap instance. -/
def InMemoryDatabase.clone (db : InMemoryDatabase) : InMemoryDatabase :=
  { read_handle := db.read_handle, write_handle := db.write_handle }

/-- The three `lazy_static` process-global maps backing
`InMemoryDbWithCache`: `CACHE_DB` (backing map), `CACHE_CACHE`
(in-process cache), `CACHE_STATS` (counters; `entry(..).or_insert(0)`
makes an absent counter behave as `0`, so counters are modelled as a
total function defaulting to `0`). -/
structure CacheState where
  cache_db : String → Option String
  cache_cache : String → Option String
  cache_stats : String → Nat

/-- State in which the global maps are as `lazy_static` initializes them:
all empty. -/
def initialCacheState : CacheState :=
  { cache_db := fun _ => none
    cache_cache := fun _ => none
    cache_stats := fun _ => 0 }

/-- Increment one stats counter (`stats.entry(name).or_insert(0); += 1`). -/
def CacheState.bump (st : CacheState) (name : String) : CacheState :=
  { st with cache_stats := fun k => if k = name then st.cache_stats k + 1 else st.cache_stats k }

/-- Struct `InMemoryDbWithCache(())`: a unit struct; all its state lives
in the process globals. -/
structure InMemoryDbWithCache where
  unit : Unit
deriving DecidableEq

/-- Constructor `InMemoryDbWithCache::new()`. -/
def InMemoryDbWithCache.new : InMemoryDbWithCache := ⟨()⟩

/-- Impl `Clone for InMemoryDbWithCache`: returns `InMemoryDbWithCache::new()`. -/
def InMemoryDbWithCache.clone (_ : InMemoryDbWithCache) : InMemoryDbWithCache :=
  InMemoryDbWithCache.new

/-- Method `InMemoryDbWithCache::set`: bump `calls_to_cache_set`, insert
into the cache map only, return `Ok(())`.  The backing map is not
touched. -/
def InMemoryDbWithCache.set (_ : InMemoryDbWithCache) (pos value : String)
    (st : CacheState) : Except StorageError Unit × CacheState :=
  let st1 := st.bump "calls_to_cache_set"
  (.ok (),
   { st1 with cache_cache := fun k => if k = pos then some value else st1.cache_cache k })

/-- Method `InMemoryDbWithCache::get`: bump `calls_to_cache_get`; on a
cache hit return the cached value; on a miss bump `calls_to_db_get` and
read the backing map — `Err(GetError)` (early return, cache untouched) if
absent there too, else insert the value into the cache and return it. -/
def InMemoryDbWithCache.get (_ : InMemoryDbWithCache) (pos : String)
    (st : CacheState) : Except StorageError String × CacheState :=
  let st1 := st.bump "calls_to_cache_get"
  match st1.cache_cache pos with
  | some value => (.ok value, st1)
  | none =>
    let st2 := st1.bump "calls_to_db_get"
    match st2.cache_db pos with
    | none => (.error .GetError, st2)
    | some value =>
      (.ok value,
       { st2 with cache_cache := fun k => if k = pos then some value else st2.cache_cache k })

/-- Method `InMemoryDbWithCache::clear_stats`: flush every cache entry
into the backing map, then clear the cache and the stats. -/
def InMemoryDbWithCache.clear_stats (_ : InMemoryDbWithCache)
    (st : CacheState) : CacheState :=
  { cache_db := fun k => match st.cache_cache k with
      | some v => some v
      | none => st.cache_db k
    cache_cache := fun _ => none
    cache_stats := fun _ => 0 }

-- ==============================================================
-- Node states (akd_quorum/src/node/node_states.rs)
-- ==============================================================

/-- Identifier of a quorum member (`crate::comms::NodeId`); opaque,
ordered, hashable — modelled as `Nat`. -/
abbrev NodeId : Type := Nat

/-- Monotonic timestamp (`tokio::time::Instant`), modelled as a `Nat`
clock reading; the embedded type definitions only store it. -/
abbrev Instant : Type := Nat

/-- Encrypted share of the quorum key
(`crate::crypto::EncryptedQuorumKeyShard`); opaque byte payload. -/
abbrev EncryptedQuorumKeyShard : Type := List Nat

/-- Model of `std::collections::HashMap<κ, α>`: a partial map (`none` =
key absent from the map). -/
abbrev HashMapModel (κ α : Type) : Type := κ → Option α

/-- Modelled from the spec: `AddNodeInit` (in
`crate::node::messages::inter_node`, not under `src/`) is a
membership-change request "identifying the candidate member (for
addition); opaque beyond identity". -/
structure AddNodeInit where
  node_id : NodeId
deriving DecidableEq

/-- Modelled from the spec: `RemoveNodeInit` identifies the target member
for removal; opaque beyond identity. -/
structure RemoveNodeInit where
  node_id : NodeId
deriving DecidableEq

/-- Modelled from the spec: `AddNodeTestResult` is "a worker's local
admission test outcome; a boolean verdict (pass/fail) plus any
worker-contributed data needed later for resharing". -/
structure AddNodeTestResult where
  verdict : Bool
  contribution : List Nat
deriving DecidableEq

/-- Modelled from the spec: `RemoveNodeTestResult`, the eviction-test
counterpart of `AddNodeTestResult`. -/
structure RemoveNodeTestResult where
  verdict : Bool
  contribution : List Nat
deriving DecidableEq

/-- Enum `LeaderState<H>`: the states a leader goes through.  Each
accumulator is a `HashMap` whose entries are written `none` = member still
outstanding / `some x` = received (for the vote-collecting variants the
entry type is itself an `Option`). -/
inductive LeaderState where
  /-- Processing a verification, waiting on responses.
  Args: (start_time, request, test_results). -/
  | ProcessingVerification (start_time : Instant) (request : messages.VerifyRequest)
      (test_results : HashMapModel NodeId (Option messages.VerifyResponse))
  /-- Waiting on the votes whether the node can be added.
  Args: (start_time, request, test_results). -/
  | ProcessingAddition (start_time : Instant) (request : AddNodeInit)
      (test_results : HashMapModel NodeId (Option AddNodeTestResult))
  /-- New encrypted shards to be transmitted to the edges.
  Args: (start_time, request, new_crypto_shards). -/
  | AddingMember (start_time : Instant) (request : AddNodeInit)
      (new_crypto_shards : HashMapModel NodeId EncryptedQuorumKeyShard)
  /-- Waiting on the votes whether the node should be removed.
  Args: (start_time, request, test_results). -/
  | ProcessingRemoval (start_time : Instant) (request : RemoveNodeInit)
      (test_results : HashMapModel NodeId (Option RemoveNodeTestResult))
  /-- Removing a member, transmitting the new shards to the edge.
  Args: (start_time, node_to_remove, new_crypto_shards). -/
  | RemovingMember (start_time : Instant) (node_to_remove : NodeId)
      (new_crypto_shards : HashMapModel NodeId EncryptedQuorumKeyShard)

/-- Enum `WorkerState<H>`: the states a quorum worker goes through. -/
inductive WorkerState where
  /-- Verifying an AKD change. Args: (leader, request). -/
  | Verifying (leader : NodeId) (request : messages.VerifyRequest)
  /-- Testing a member for an addition operation. -/
  | TestingAddMember (leader : NodeId) (request : AddNodeInit) (verdict : Bool)
  /-- Waiting on the addition result from the leader. -/
  | WaitingOnMemberAddResult (request : AddNodeInit)
  /-- Testing a member for a removal operation. -/
  | TestingRemoveMember (leader : NodeId) (request : RemoveNodeInit) (verdict : Bool)
  /-- Waiting on the removal result from the leader. -/
  | WaitingOnMemberRemoveResult (request : RemoveNodeInit)

/-- Enum `NodeStatus<H>`: the status of a node. -/
inductive NodeStatus where
  /-- Ready for anything. -/
  | Ready
  /-- Node is leading an operation. -/
  | Leading (s : LeaderState)
  /-- Node is a worker in an operation. -/
  | Following (s : WorkerState)

-- ==============================================================
-- Claim theorems: storage backend
-- ==============================================================

/-- Claim C3 counterexample: the claim says `InMemoryDbWithCache::set`
writes through to the backing map, but after `set("a", "b")` from the
initial global state the backing map (`CACHE_DB`) still has no entry for
`"a"` — only the cache was written. -/
theorem C3_counterexample :
    ((InMemoryDbWithCache.set InMemoryDbWithCache.new "a" "b" initialCacheState).2).cache_db "a"
      = none := rfl

/-- Claim C3 (amended): `InMemoryDbWithCache::set(k, v)` returns `Ok`,
stores `v` for `k` in the in-process cache, and leaves the backing map
unchanged; the value reaches the backing map only when `clear_stats`
flushes the cache into it. -/
theorem C3_set_is_cache_only (db : InMemoryDbWithCache) (k v : String) (st : CacheState) :
    (InMemoryDbWithCache.set db k v st).1 = .ok () ∧
    ((InMemoryDbWithCache.set db k v st).2).cache_cache k = some v ∧
    ((InMemoryDbWithCache.set db k v st).2).cache_db = st.cache_db ∧
    (InMemoryDbWithCache.clear_stats db ((InMemoryDbWithCache.set db k v st).2)).cache_db k
      = some v := by
  refine ⟨rfl, ?_, rfl, ?_⟩ <;>
    simp [InMemoryDbWithCache.set, InMemoryDbWithCache.clear_stats, CacheState.bump]

/-- Claim C4: for `InMemoryDatabase`, `set` always returns `Ok`; after
`set(k, v)` a `get(k)` returns `Ok(v)` (any prior value for `k` was
cleared before the insert); repeating the same `set` leaves the same
state; and `get` on a key holding no value returns
`Err(StorageError::GetError)`. -/
theorem C4_inmemorydatabase (db : InMemoryDatabase) (env : EvmapEnv) (k v : String) :
    (InMemoryDatabase.set db k v env).1 = .ok () ∧
    (db.read_handle = db.write_handle →
      InMemoryDatabase.get db k (InMemoryDatabase.set db k v env).2 = .ok v) ∧
    (InMemoryDatabase.set db k v (InMemoryDatabase.set db k v env).2).2
      = (InMemoryDatabase.set db k v env).2 ∧
    (env db.read_handle k = [] → InMemoryDatabase.get db k env = .error .GetError) := by
  refine ⟨rfl, ?_, ?_, ?_⟩
  · intro h
    simp [InMemoryDatabase.get, InMemoryDatabase.set, h]
  · funext h' k'
    by_cases hw : h' = db.write_handle <;> by_cases hk : k' = k <;>
      simp [InMemoryDatabase.set, hw, hk]
  · intro h
    simp [InMemoryDatabase.get, h]

/-- Claim C4 witness: on a fresh database, `get` after `set` returns the
value just written. -/
theorem C4_witness :
    InMemoryDatabase.get (InMemoryDatabase.new 0) "a"
      (InMemoryDatabase.set (InMemoryDatabase.new 0) "a" "b" emptyEvmapEnv).2 = .ok "b" :=
  (C4_inmemorydatabase (InMemoryDatabase.new 0) emptyEvmapEnv "a" "b").2.1 rfl

/-- Claim C6: `InMemoryDbWithCache::get` returns the cached value on a
cache hit (leaving cache and backing map unchanged); on a cache miss with
a backing-map hit it returns the backing value, inserts it into the
cache, and a subsequent `get` of the same key is then served from the
cache — it returns the same value without touching the backing map (the
`calls_to_db_get` counter does not move). -/
theorem C6_cache_get (db : InMemoryDbWithCache) (k v : String) (st : CacheState) :
    (st.cache_cache k = some v →
      (InMemoryDbWithCache.get db k st).1 = .ok v ∧
      ((InMemoryDbWithCache.get db k st).2).cache_cache = st.cache_cache ∧
      ((InMemoryDbWithCache.get db k st).2).cache_db = st.cache_db) ∧
    (st.cache_cache k = none → st.cache_db k = some v →
      (InMemoryDbWithCache.get db k st).1 = .ok v ∧
      ((InMemoryDbWithCache.get db k st).2).cache_cache k = some v ∧
      (InMemoryDbWithCache.get db k ((InMemoryDbWithCache.get db k st).2)).1 = .ok v ∧
      ((InMemoryDbWithCache.get db k ((InMemoryDbWithCache.get db k st).2)).2).cache_stats
          "calls_to_db_get"
        = ((InMemoryDbWithCache.get db k st).2).cache_stats "calls_to_db_get") := by
  constructor
  · intro hcc
    simp [InMemoryDbWithCache.get, CacheState.bump, hcc]
  · intro hcc hdb
    simp [InMemoryDbWithCache.get, CacheState.bump, hcc, hdb]

/-- Intermediate global state for the cache-miss/backing-hit scenario:
the backing map holds `"a" ↦ "b"`, the cache is empty. -/
def dbOnlyCacheState : CacheState :=
  { cache_db := fun k => if k = "a" then some "b" else none
    cache_cache := fun _ => none
    cache_stats := fun _ => 0 }

/-- Claim C6 witness: a cache miss with a backing-map hit returns the
backing value. -/
theorem C6_witness :
    (InMemoryDbWithCache.get InMemoryDbWithCache.new "a" dbOnlyCacheState).1 = .ok "b" :=
  ((C6_cache_get InMemoryDbWithCache.new "a" "b" dbOnlyCacheState).2 rfl
    (by simp [dbOnlyCacheState])).1

/-- Claim C9: when a key is absent from both the cache and the backing
map, `InMemoryDbWithCache::get` returns `Err(StorageError::GetError)` and
leaves both maps unchanged (the early return precedes the cache insert);
moreover `get` never modifies the backing map, and it modifies the cache
only on the cache-miss/backing-hit path. -/
theorem C9_cache_get_miss (db : InMemoryDbWithCache) (k : String) (st : CacheState) :
    (st.cache_cache k = none → st.cache_db k = none →
      (InMemoryDbWithCache.get db k st).1 = .error .GetError ∧
      ((InMemoryDbWithCache.get db k st).2).cache_cache = st.cache_cache ∧
      ((InMemoryDbWithCache.get db k st).2).cache_db = st.cache_db) ∧
    (((InMemoryDbWithCache.get db k st).2).cache_db = st.cache_db) ∧
    (((InMemoryDbWithCache.get db k st).2).cache_cache ≠ st.cache_cache →
      st.cache_cache k = none ∧ ∃ v, st.cache_db k = some v) := by
  refine ⟨?_, ?_, ?_⟩
  · intro hcc hdb
    simp [InMemoryDbWithCache.get, CacheState.bump, hcc, hdb]
  · rcases hcc : st.cache_cache k with _ | v
    · rcases hdb : st.cache_db k with _ | w <;>
        simp [InMemoryDbWithCache.get, CacheState.bump, hcc, hdb]
    · simp [InMemoryDbWithCache.get, CacheState.bump, hcc]
  · intro hne
    rcases hcc : st.cache_cache k with _ | v
    · rcases hdb : st.cache_db k with _ | w
      · exact absurd (by simp [InMemoryDbWithCache.get, CacheState.bump, hcc, hdb]) hne
      · exact ⟨rfl, w, rfl⟩
    · exact absurd (by simp [InMemoryDbWithCache.get, CacheState.bump, hcc]) hne

/-- Claim C9 witness: on the initial (all-empty) global state, `get`
fails with `GetError`. -/
theorem C9_witness :
    (InMemoryDbWithCache.get InMemoryDbWithCache.new "a" initialCacheState).1
      = .error .GetError :=
  ((C9_cache_get_miss InMemoryDbWithCache.new "a" initialCacheState).1 rfl rfl).1

/-- Claim C10: a clone of an `InMemoryDatabase` carries the same handles,
so a `set` through the clone is observed by a `get` on the original; and
every `InMemoryDbWithCache` value (clones included, which are just
`new()`) operates on the same process-global state, so a value `set`
through one instance is returned by `get` on any other. -/
theorem C10_shared_state (db : InMemoryDatabase) (env : EvmapEnv) (k v : String)
    (a b : InMemoryDbWithCache) (st : CacheState) :
    InMemoryDatabase.clone db = db ∧
    (db.read_handle = db.write_handle →
      InMemoryDatabase.get db k
        (InMemoryDatabase.set (InMemoryDatabase.clone db) k v env).2 = .ok v) ∧
    InMemoryDbWithCache.clone a = InMemoryDbWithCache.new ∧
    (InMemoryDbWithCache.get b k (InMemoryDbWithCache.set a k v st).2).1 = .ok v := by
  refine ⟨rfl, ?_, rfl, ?_⟩
  · intro h
    simp [InMemoryDatabase.get, InMemoryDatabase.set, InMemoryDatabase.clone, h]
  · simp [InMemoryDbWithCache.get, InMemoryDbWithCache.set, CacheState.bump]

/-- Claim C10 witness: on a fresh database, a write through a clone is
read back through the original handle pair. -/
theorem C10_witness :
    InMemoryDatabase.get (InMemoryDatabase.new 5) "k"
      (InMemoryDatabase.set (InMemoryDatabase.clone (InMemoryDatabase.new 5)) "k" "w"
        emptyEvmapEnv).2 = .ok "w" :=
  (C10_shared_state (InMemoryDatabase.new 5) emptyEvmapEnv "k" "w"
    InMemoryDbWithCache.new InMemoryDbWithCache.new initialCacheState).2.1 rfl

-- ==============================================================
-- Claim theorems: node states
-- ==============================================================

/-- Projection: the monotonic start timestamp every `LeaderState` variant
carries as its first argument. -/
def LeaderState.start_time : LeaderState → Instant
  | .ProcessingVerification t _ _ => t
  | .ProcessingAddition t _ _ => t
  | .AddingMember t _ _ => t
  | .ProcessingRemoval t _ _ => t
  | .RemovingMember t _ _ => t

/-- The originating request of a round, as a sum over the three request
kinds. -/
inductive QuorumRequest where
  | verify (r : messages.VerifyRequest)
  | add (r : AddNodeInit)
  | remove (r : RemoveNodeInit)

/-- Projection: the originating request a `LeaderState` variant carries as
its second argument.  `RemovingMember` stores the target's `NodeId`,
which by the spec's definition of `RemoveNodeInit` ("opaque beyond
identity") is the request's entire content. -/
def LeaderState.request : LeaderState → QuorumRequest
  | .ProcessingVerification _ r _ => .verify r
  | .ProcessingAddition _ r _ => .add r
  | .AddingMember _ r _ => .add r
  | .ProcessingRemoval _ r _ => .remove r
  | .RemovingMember _ n _ => .remove { node_id := n }

/-- The accumulator a `LeaderState` variant carries as its third argument:
either a reply map (entry `none` = outstanding, `some x` = received) for
one of the three vote-collecting rounds, or a `NodeId → EncryptedShare`
map for the two resharing rounds. -/
inductive LeaderAccumulator where
  | verifyReplies (m : HashMapModel NodeId (Option messages.VerifyResponse))
  | addVotes (m : HashMapModel NodeId (Option AddNodeTestResult))
  | removeVotes (m : HashMapModel NodeId (Option RemoveNodeTestResult))
  | shares (m : HashMapModel NodeId EncryptedQuorumKeyShard)

/-- Projection: the accumulator of each `LeaderState` variant. -/
def LeaderState.accumulator : LeaderState → LeaderAccumulator
  | .ProcessingVerification _ _ m => .verifyReplies m
  | .ProcessingAddition _ _ m => .addVotes m
  | .AddingMember _ _ m => .shares m
  | .ProcessingRemoval _ _ m => .removeVotes m
  | .RemovingMember _ _ m => .shares m

/-- Discriminant of the five `LeaderState` variants. -/
def LeaderState.shape : LeaderState → Nat
  | .ProcessingVerification _ _ _ => 1
  | .ProcessingAddition _ _ _ => 2
  | .AddingMember _ _ _ => 3
  | .ProcessingRemoval _ _ _ => 4
  | .RemovingMember _ _ _ => 5

/-- Claim C7: `NodeStatus` is exactly `Ready | Leading _ | Following _`:
every value is one of the three, the three are pairwise distinct, and a
`Leading`/`Following` value determines a unique round state — no value
holds both a leader round and a worker round, or two rounds of one
role. -/
theorem C7_node_status_exclusive (s : NodeStatus) :
    (s = .Ready ∨ (∃ ls, s = .Leading ls) ∨ (∃ ws, s = .Following ws)) ∧
    (∀ ls, NodeStatus.Leading ls ≠ .Ready) ∧
    (∀ ws, NodeStatus.Following ws ≠ .Ready) ∧
    (∀ ls ws, NodeStatus.Leading ls ≠ NodeStatus.Following ws) ∧
    (∀ ls₁ ls₂, NodeStatus.Leading ls₁ = NodeStatus.Leading ls₂ → ls₁ = ls₂) ∧
    (∀ ws₁ ws₂, NodeStatus.Following ws₁ = NodeStatus.Following ws₂ → ws₁ = ws₂) := by
  refine ⟨?_, ?_, ?_, ?_, ?_, ?_⟩
  · cases s <;> simp
  all_goals intros; simp_all

/-- An all-zero digest, used to build concrete sample messages. -/
def zeroDigest : Digest := ⟨List.replicate DIGEST_LEN 0, by simp⟩

/-- Concrete sample verification request. -/
def sampleVerifyRequest : messages.VerifyRequest :=
  { epoch := 10
    new_hash := zeroDigest
    previous_hash := zeroDigest
    append_only_proof := { inserted := [], unchanged_nodes := [] } }

/-- Concrete sample leader round state. -/
def sampleLeaderState : LeaderState :=
  .ProcessingVerification 0 sampleVerifyRequest (fun _ => none)

/-- Concrete sample worker round state. -/
def sampleWorkerState : WorkerState := .Verifying 1 sampleVerifyRequest

/-- Claim C7 witness: a node leading a concrete verification round is not
simultaneously following one. -/
theorem C7_witness :
    NodeStatus.Leading sampleLeaderState ≠ NodeStatus.Following sampleWorkerState :=
  (C7_node_status_exclusive (NodeStatus.Leading sampleLeaderState)).2.2.2.1
    sampleLeaderState sampleWorkerState

/-- Claim C8: `LeaderState` is a tagged union over exactly five round
shapes (every value matches one constructor, and the constructors have
distinct discriminants); each variant carries a start timestamp, the
originating request, and an accumulator — a `NodeId → Option reply` map
for the three vote-collecting variants, and a `NodeId → EncryptedShare`
map for `AddingMember` and `RemovingMember`. -/
theorem C8_leader_state_shape (s : LeaderState) :
    ((∃ t r m, s = .ProcessingVerification t r m) ∨
     (∃ t r m, s = .ProcessingAddition t r m) ∨
     (∃ t r m, s = .AddingMember t r m) ∨
     (∃ t r m, s = .ProcessingRemoval t r m) ∨
     (∃ t n m, s = .RemovingMember t n m)) ∧
    (∀ t r m, (LeaderState.ProcessingVerification t r m).shape = 1 ∧
      (LeaderState.ProcessingVerification t r m).start_time = t ∧
      (LeaderState.ProcessingVerification t r m).request = .verify r ∧
      (LeaderState.ProcessingVerification t r m).accumulator = .verifyReplies m) ∧
    (∀ t r m, (LeaderState.ProcessingAddition t r m).shape = 2 ∧
      (LeaderState.ProcessingAddition t r m).start_time = t ∧
      (LeaderState.ProcessingAddition t r m).request = .add r ∧
      (LeaderState.ProcessingAddition t r m).accumulator = .addVotes m) ∧
    (∀ t r m, (LeaderState.AddingMember t r m).shape = 3 ∧
      (LeaderState.AddingMember t r m).start_time = t ∧
      (LeaderState.AddingMember t r m).request = .add r ∧
      (LeaderState.AddingMember t r m).accumulator = .shares m) ∧
    (∀ t r m, (LeaderState.ProcessingRemoval t r m).shape = 4 ∧
      (LeaderState.ProcessingRemoval t r m).start_time = t ∧
      (LeaderState.ProcessingRemoval t r m).request = .remove r ∧
      (LeaderState.ProcessingRemoval t r m).accumulator = .removeVotes m) ∧
    (∀ t n m, (LeaderState.RemovingMember t n m).shape = 5 ∧
      (LeaderState.RemovingMember t n m).start_time = t ∧
      (LeaderState.RemovingMember t n m).request = .remove { node_id := n } ∧
      (LeaderState.RemovingMember t n m).accumulator = .shares m) := by
  refine ⟨?_, ?_, ?_, ?_, ?_, ?_⟩
  · cases s <;> simp
  all_goals intros; exact ⟨rfl, rfl, rfl, rfl⟩

-- ==============================================================
-- Claim theorems: wire conversions
-- ==============================================================

/-- Reduction of the `Except` monad's bind on a success value. -/
@[simp]
theorem except_ok_bind {ε : Type u} {α β : Type v} (a : α) (f : α → Except ε β) :
    ((Except.ok a : Except ε α) >>= f) = f a := rfl

/-- Reduction of the `Except` monad's bind on an error value. -/
@[simp]
theorem except_error_bind {ε : Type u} {α β : Type v} (e : ε) (f : α → Except ε β) :
    ((Except.error e : Except ε α) >>= f) = .error e := rfl

/-- Digest serialization roundtrip: decoding the bytes of a digest gives
back the digest (`to_digest` only checks the length, which holds). -/
theorem to_digest_from_digest (d : Digest) : to_digest (from_digest d) = some d := by
  obtain ⟨l, hl⟩ := d
  simp [to_digest, from_digest, hl]

/-- Computed form of the node-list encoder: it never fails and encodes
element-wise, in order. -/
theorem encode_node_list_eq (ns : List akd.Node) :
    inter_node.Node.try_from_list ns
      = .ok (ns.map fun n =>
          { label := some { len := some n.label.len, val := some n.label.val }
            hash := some (from_digest n.hash) }) := by
  induction ns with
  | nil => rfl
  | cons x xs ih =>
    simp [inter_node.Node.try_from_list, inter_node.Node.try_from,
      inter_node.NodeLabel.try_from, ih]

/-- Decoding an encoded single node yields the original node. -/
theorem decode_encoded_node (n : akd.Node) :
    akd.Node.try_from
        { label := some { len := some n.label.len, val := some n.label.val }
          hash := some (from_digest n.hash) }
      = .ok n := by
  simp [akd.Node.try_from, akd.NodeLabel.try_from,
    inter_node.Node.has_label, inter_node.Node.has_hash,
    inter_node.Node.get_label, inter_node.Node.get_hash,
    inter_node.NodeLabel.has_len, inter_node.NodeLabel.has_val,
    inter_node.NodeLabel.get_len, inter_node.NodeLabel.get_val,
    to_digest_from_digest]

/-- Decoding an encoded node list yields the original list, in order. -/
theorem decode_encoded_node_list (ns : List akd.Node) :
    akd.Node.try_from_list
        (ns.map fun n =>
          { label := some { len := some n.label.len, val := some n.label.val }
            hash := some (from_digest n.hash) })
      = .ok ns := by
  induction ns with
  | nil => rfl
  | cons x xs ih =>
    simp [akd.Node.try_from_list, decode_encoded_node x, ih]

/-- Claim C5: converting a `NodeLabel`, `Node`, or `AppendOnlyProof` to
its wire representation and back yields the original value; for
`AppendOnlyProof` the `inserted` and `unchanged` sequences come back with
the same elements in the same order. -/
theorem C5_wire_roundtrip (l : akd.NodeLabel) (n : akd.Node) (p : akd.AppendOnlyProof) :
    (inter_node.NodeLabel.try_from l).bind akd.NodeLabel.try_from = .ok l ∧
    (inter_node.Node.try_from n).bind akd.Node.try_from = .ok n ∧
    (inter_node.AppendOnlyProof.try_from p).bind akd.AppendOnlyProof.try_from = .ok p := by
  refine ⟨?_, ?_, ?_⟩
  · simp [inter_node.NodeLabel.try_from, Except.bind, akd.NodeLabel.try_from,
      inter_node.NodeLabel.has_len, inter_node.NodeLabel.has_val,
      inter_node.NodeLabel.get_len, inter_node.NodeLabel.get_val]
  · simp [inter_node.Node.try_from, inter_node.NodeLabel.try_from, Except.bind,
      decode_encoded_node n]
  · simp [inter_node.AppendOnlyProof.try_from, encode_node_list_eq, Except.bind,
      akd.AppendOnlyProof.try_from, inter_node.AppendOnlyProof.get_inserted,
      inter_node.AppendOnlyProof.get_unchanged, decode_encoded_node_list]

/-- Claim C1 counterexample: decoding a wire `VerifyResponse` does not
always succeed — with both fields present but a verified-hash byte string
that is not a valid digest (here a single byte), the decoder returns a
serialization error instead of a value. -/
theorem C1_counterexample :
    messages.VerifyResponse.try_from
        { verified_hash := some [0], encrypted_quorum_key_shard := some [] }
      = .error (.Serialization "Failed to convert bytes to digest") := rfl

/-- Claim C1 (amended): both `VerifyResponse` conversions normalize
partial data to failure — whenever either or both fields are absent on
the input, the output carries both fields absent and no error is
possible; a decoded success value always carries both fields; and the
decoder errors exactly when both wire fields are present but the
verified-hash bytes fail digest decoding. -/
theorem C1_verify_response_normalization (w : inter_node.VerifyResponse)
    (v : messages.VerifyResponse) :
    (¬(w.verified_hash.isSome ∧ w.encrypted_quorum_key_shard.isSome) →
      messages.VerifyResponse.try_from w
        = .ok { verified_hash := none, encrypted_quorum_key_shard := none }) ∧
    (∀ r, messages.VerifyResponse.try_from w = .ok r →
      (r.verified_hash = none ∧ r.encrypted_quorum_key_shard = none) ∨
      (r.verified_hash.isSome ∧ r.encrypted_quorum_key_shard.isSome)) ∧
    ((∃ e, messages.VerifyResponse.try_from w = .error e) ↔
      (w.verified_hash.isSome ∧ w.encrypted_quorum_key_shard.isSome ∧
        to_digest w.get_verified_hash = none)) ∧
    (¬(v.verified_hash.isSome ∧ v.encrypted_quorum_key_shard.isSome) →
      inter_node.VerifyResponse.try_from v = .ok inter_node.VerifyResponse.new) ∧
    (∀ u, inter_node.VerifyResponse.try_from v = .ok u →
      (u.verified_hash = none ∧ u.encrypted_quorum_key_shard = none) ∨
      (u.verified_hash.isSome ∧ u.encrypted_quorum_key_shard.isSome)) := by
  obtain ⟨wh, ws⟩ := w
  obtain ⟨vh, vs⟩ := v
  refine ⟨?_, ?_, ?_, ?_, ?_⟩
  · intro hne
    cases wh <;> cases ws
    · rfl
    · rfl
    · rfl
    · exact absurd ⟨rfl, rfl⟩ hne
  · intro r hr
    unfold messages.VerifyResponse.try_from at hr
    split at hr
    · split at hr
      · simp only [Except.ok.injEq] at hr
        exact .inr (by simp [← hr])
      · simp at hr
    · simp only [Except.ok.injEq] at hr
      exact .inl (by simp [← hr])
  · cases wh with
    | none =>
      cases ws <;>
        simp [messages.VerifyResponse.try_from,
          inter_node.VerifyResponse.has_verified_hash,
          inter_node.VerifyResponse.has_encrypted_quorum_key_shard]
    | some bytes =>
      cases ws with
      | none =>
        simp [messages.VerifyResponse.try_from,
          inter_node.VerifyResponse.has_verified_hash,
          inter_node.VerifyResponse.has_encrypted_quorum_key_shard]
      | some s =>
        cases hd : to_digest bytes <;>
          simp [messages.VerifyResponse.try_from,
            inter_node.VerifyResponse.has_verified_hash,
            inter_node.VerifyResponse.has_encrypted_quorum_key_shard,
            inter_node.VerifyResponse.get_verified_hash, hd]
  · intro hne
    cases vh <;> cases vs
    · rfl
    · rfl
    · rfl
    · exact absurd ⟨rfl, rfl⟩ hne
  · intro u hu
    cases vh <;> cases vs <;>
      simp only [inter_node.VerifyResponse.try_from, inter_node.VerifyResponse.new,
        Except.ok.injEq] at hu <;>
      simp [← hu]

/-- Claim C1 witness: a wire response carrying only the shard decodes to
the failure value, and an internal response carrying only the shard
encodes to the all-unset wire message. -/
theorem C1_witness :
    messages.VerifyResponse.try_from
        { verified_hash := none, encrypted_quorum_key_shard := some [] }
      = .ok { verified_hash := none, encrypted_quorum_key_shard := none } ∧
    inter_node.VerifyResponse.try_from
        { verified_hash := none, encrypted_quorum_key_shard := some [] }
      = .ok inter_node.VerifyResponse.new :=
  ⟨(C1_verify_response_normalization
      { verified_hash := none, encrypted_quorum_key_shard := some [] }
      { verified_hash := none, encrypted_quorum_key_shard := some [] }).1
      (by simp),
   (C1_verify_response_normalization
      { verified_hash := none, encrypted_quorum_key_shard := some [] }
      { verified_hash := none, encrypted_quorum_key_shard := some [] }).2.2.2.1
      (by simp)⟩

/-- A successful single-node decode implies both wire fields were
present. -/
theorem node_ok_fields (wn : inter_node.Node) (r : akd.Node)
    (h : akd.Node.try_from wn = .ok r) :
    wn.label.isSome ∧ wn.hash.isSome := by
  by_cases hl : wn.label.isSome
  · by_cases hh : wn.hash.isSome
    · exact ⟨hl, hh⟩
    · simp [akd.Node.try_from, inter_node.Node.has_label,
        inter_node.Node.has_hash, hl, hh] at h
  · simp [akd.Node.try_from, inter_node.Node.has_label, hl] at h

/-- A successful node-list decode implies every element had both wire
fields present. -/
theorem node_list_ok_fields (ws : List inter_node.Node) (ns : List akd.Node)
    (h : akd.Node.try_from_list ws = .ok ns) :
    ∀ x ∈ ws, x.label.isSome ∧ x.hash.isSome := by
  induction ws generalizing ns with
  | nil => intro x hx; cases hx
  | cons y ys ih =>
    intro x hx
    cases hy : akd.Node.try_from y with
    | error e => simp [akd.Node.try_from_list, hy] at h
    | ok n =>
      cases hys : akd.Node.try_from_list ys with
      | error e => simp [akd.Node.try_from_list, hy, hys] at h
      | ok rest =>
        rcases List.mem_cons.mp hx with hx | hx
        · exact hx ▸ node_ok_fields y n hy
        · exact ih rest hys x hx

/-- Claim C2 counterexample: a wire `VerifyRequest` whose `proof` field is
absent (but whose `epoch`, `new_hash`, `previous_hash` are present and
valid) decodes successfully — to a request with the empty proof — instead
of failing with a serialization error. -/
theorem C2_counterexample :
    messages.VerifyRequest.try_from
        { epoch := some 1
          new_hash := some (from_digest zeroDigest)
          previous_hash := some (from_digest zeroDigest)
          proof := none }
      = .ok { epoch := 1
              new_hash := zeroDigest
              previous_hash := zeroDigest
              append_only_proof := { inserted := [], unchanged_nodes := [] } } := by
  simp [messages.VerifyRequest.try_from,
    inter_node.VerifyRequest.has_epoch, inter_node.VerifyRequest.has_new_hash,
    inter_node.VerifyRequest.has_previous_hash, inter_node.VerifyRequest.get_epoch,
    inter_node.VerifyRequest.get_new_hash, inter_node.VerifyRequest.get_previous_hash,
    inter_node.VerifyRequest.get_proof, inter_node.AppendOnlyProof.new,
    akd.AppendOnlyProof.try_from, akd.Node.try_from_list,
    inter_node.AppendOnlyProof.get_inserted, inter_node.AppendOnlyProof.get_unchanged,
    to_digest_from_digest]

/-- Claim C2 (amended): for the non-`VerifyResponse` messages, decoding
fails with a serialization error naming the missing field whenever one of
the presence-checked fields is absent — `len`/`val` for `NodeLabel`,
`label`/`hash` for `Node` (also inside every node of an
`AppendOnlyProof`), and `epoch`/`new_hash`/`previous_hash` for
`VerifyRequest` — and succeeds only when all those fields are present;
the `VerifyRequest.proof` field, however, is not presence-checked (an
absent proof decodes as the empty proof, see the counterexample). -/
theorem C2_required_field_checks (wl : inter_node.NodeLabel) (wn : inter_node.Node)
    (wp : inter_node.AppendOnlyProof) (wr : inter_node.VerifyRequest) :
    (wl.len = none →
      akd.NodeLabel.try_from wl
        = .error (.Serialization "Condition input.has_len() failed.")) ∧
    (wl.len.isSome → wl.val = none →
      akd.NodeLabel.try_from wl
        = .error (.Serialization "Condition input.has_val() failed.")) ∧
    (∀ r, akd.NodeLabel.try_from wl = .ok r → wl.len.isSome ∧ wl.val.isSome) ∧
    (wn.label = none →
      akd.Node.try_from wn
        = .error (.Serialization "Condition input.has_label() failed.")) ∧
    (wn.label.isSome → wn.hash = none →
      akd.Node.try_from wn
        = .error (.Serialization "Condition input.has_hash() failed.")) ∧
    (∀ r, akd.Node.try_from wn = .ok r → wn.label.isSome ∧ wn.hash.isSome) ∧
    (∀ r, akd.AppendOnlyProof.try_from wp = .ok r →
      ∀ x ∈ wp.inserted ++ wp.unchanged, x.label.isSome ∧ x.hash.isSome) ∧
    (wr.epoch = none →
      messages.VerifyRequest.try_from wr
        = .error (.Serialization "Condition input.has_epoch() failed.")) ∧
    (wr.epoch.isSome → wr.new_hash = none →
      messages.VerifyRequest.try_from wr
        = .error (.Serialization "Condition input.has_new_hash() failed.")) ∧
    (wr.epoch.isSome → wr.new_hash.isSome → wr.previous_hash = none →
      messages.VerifyRequest.try_from wr
        = .error (.Serialization "Condition input.has_previous_hash() failed.")) ∧
    (∀ r, messages.VerifyRequest.try_from wr = .ok r →
      wr.epoch.isSome ∧ wr.new_hash.isSome ∧ wr.previous_hash.isSome) := by
  refine ⟨?_, ?_, ?_, ?_, ?_, ?_, ?_, ?_, ?_, ?_, ?_⟩
  · intro h
    simp [akd.NodeLabel.try_from, inter_node.NodeLabel.has_len, h]
  · intro h1 h2
    simp [akd.NodeLabel.try_from, inter_node.NodeLabel.has_len,
      inter_node.NodeLabel.has_val, h1, h2]
  · intro r hr
    by_cases h1 : wl.len.isSome
    · by_cases h2 : wl.val.isSome
      · exact ⟨h1, h2⟩
      · simp [akd.NodeLabel.try_from, inter_node.NodeLabel.has_len,
          inter_node.NodeLabel.has_val, h1, h2] at hr
    · simp [akd.NodeLabel.try_from, inter_node.NodeLabel.has_len, h1] at hr
  · intro h
    simp [akd.Node.try_from, inter_node.Node.has_label, h]
  · intro h1 h2
    simp [akd.Node.try_from, inter_node.Node.has_label,
      inter_node.Node.has_hash, h1, h2]
  · exact fun r hr => node_ok_fields wn r hr
  · intro r hr x hx
    unfold akd.AppendOnlyProof.try_from at hr
    cases hi : akd.Node.try_from_list wp.get_inserted with
    | error e => simp [hi] at hr
    | ok ins =>
      cases hu : akd.Node.try_from_list wp.get_unchanged with
      | error e => simp [hi, hu] at hr
      | ok unch =>
        rcases List.mem_append.mp hx with hx | hx
        · exact node_list_ok_fields wp.get_inserted ins hi x hx
        · exact node_list_ok_fields wp.get_unchanged unch hu x hx
  · intro h
    simp [messages.VerifyRequest.try_from, inter_node.VerifyRequest.has_epoch, h]
  · intro h1 h2
    simp [messages.VerifyRequest.try_from, inter_node.VerifyRequest.has_epoch,
      inter_node.VerifyRequest.has_new_hash, h1, h2]
  · intro h1 h2 h3
    simp [messages.VerifyRequest.try_from, inter_node.VerifyRequest.has_epoch,
      inter_node.VerifyRequest.has_new_hash, inter_node.VerifyRequest.has_previous_hash,
      h1, h2, h3]
  · intro r hr
    by_cases h1 : wr.epoch.isSome
    · by_cases h2 : wr.new_hash.isSome
      · by_cases h3 : wr.previous_hash.isSome
        · exact ⟨h1, h2, h3⟩
        · simp [messages.VerifyRequest.try_from, inter_node.VerifyRequest.has_epoch,
            inter_node.VerifyRequest.has_new_hash,
            inter_node.VerifyRequest.has_previous_hash, h1, h2, h3] at hr
      · simp [messages.VerifyRequest.try_from, inter_node.VerifyRequest.has_epoch,
          inter_node.VerifyRequest.has_new_hash, h1, h2] at hr
    · simp [messages.VerifyRequest.try_from, inter_node.VerifyRequest.has_epoch, h1] at hr

/-- Claim C2 witness: the all-unset wire `NodeLabel` fails to decode with
the error naming the `len` presence check. -/
theorem C2_witness :
    akd.NodeLabel.try_from inter_node.NodeLabel.new
      = .error (.Serialization "Condition input.has_len() failed.") :=
  (C2_required_field_checks inter_node.NodeLabel.new inter_node.Node.new
    inter_node.AppendOnlyProof.new inter_node.VerifyRequest.new).1 rfl

/-- Claim C3 witness: a concrete `set` lands the value in the in-process
cache. -/
theorem C3_witness :
    ((InMemoryDbWithCache.set InMemoryDbWithCache.new "k" "v" initialCacheState).2).cache_cache
      "k" = some "v" :=
  (C3_set_is_cache_only InMemoryDbWithCache.new "k" "v" initialCacheState).2.1

/-- Claim C5 witness: a concrete proof value survives the wire
roundtrip. -/
theorem C5_witness :
    (inter_node.AppendOnlyProof.try_from { inserted := [], unchanged_nodes := [] }).bind
        akd.AppendOnlyProof.try_from
      = .ok { inserted := [], unchanged_nodes := [] } :=
  (C5_wire_roundtrip { len := 0, val := 0 }
    { label := { len := 0, val := 0 }, hash := zeroDigest }
    { inserted := [], unchanged_nodes := [] }).2.2

/-- Claim C8 witness: a concrete verification round carries discriminant 1
and its start timestamp. -/
theorem C8_witness :
    (LeaderState.ProcessingVerification 0 sampleVerifyRequest (fun _ => none)).shape = 1 ∧
    (LeaderState.ProcessingVerification 0 sampleVerifyRequest (fun _ => none)).start_time = 0 :=
  ⟨((C8_leader_state_shape sampleLeaderState).2.1 0 sampleVerifyRequest (fun _ => none)).1,
   ((C8_leader_state_shape sampleLeaderState).2.1 0 sampleVerifyRequest (fun _ => none)).2.1⟩
